import Mathlib

/-!
Shallow embedding of the mcserver-manager gateway (src/main.py,
src/port_listener.py, src/web_server.py) together with the external-call
interface of src/digitalocean_manager.py and src/minecraft_monitor.py.

External collaborator calls (the DigitalOcean instance controller and the
Minecraft liveness probe) are modelled as an oracle environment: each model
function receives the results the collaborators would return and emits the
list of collaborator calls it performs, so frame properties ("no controller
call is made") are statements about that list.  Time instants are natural
numbers; `datetime.now()` becomes an explicit `now` argument.
-/

namespace MCSM

/-- External collaborator calls made by the manager: the three instance
controller operations of `DigitalOceanManager` and the liveness-probe
operations of `MinecraftMonitor`. -/
inductive Call where
  | isRunning
  | startDroplet
  | stopDroplet
  | isServerOnline
  | getPlayerCount
  | waitForServerReady
deriving DecidableEq, Repr

/-- Mutable state of `MCServerManager` (src/main.py lines 55-58) that the
modelled operations read and write: `last_activity_time`,
`startup_in_progress` (the startup guard) and `server_ready`. -/
structure ManagerState where
  last_activity_time : Option Nat
  startup_in_progress : Bool
  server_ready : Bool
deriving DecidableEq, Repr

/-- Result classification of one `check_inactivity` tick, using the
vocabulary of the specification: the branch the code takes corresponds to
one of these actions. -/
inductive Action where
  | NoAction
  | StartIdleTimer
  | StillIdle (remaining : Nat)
  | TimeoutExceeded
deriving DecidableEq, Repr

/-- Oracle inputs consumed by one `check_inactivity` tick: the result of
`do_manager.is_running()`, the proxy's active-connection count, the result
of `mc_monitor.is_server_online()`, and `mc_monitor.get_player_count()`
(`none` models Python `None`). -/
structure CheckEnv where
  isRunning : Bool
  activeConnections : Nat
  serverOnline : Bool
  playerCount : Option Nat
deriving DecidableEq, Repr

/-- `MCServerManager.start_server` (src/main.py lines 107-122), net effect:
if `startup_in_progress` is set the call returns at once with no controller
call; otherwise it sets the guard, clears `server_ready`, calls
`do_manager.start_droplet()` and clears the guard in a `finally` block.
After the call the guard is clear on every path (the intermediate
configurations are modelled by `startStep` below). -/
def start_server (s : ManagerState) : ManagerState × List Call :=
  if s.startup_in_progress then (s, [])
  else ({ s with server_ready := false, startup_in_progress := false },
        [Call.startDroplet])

/-- Droplet-wait loop of `ensure_server_ready` (src/main.py lines 82-90):
`while time.time() - start_time < 300: if is_running(): break; sleep(5)`.
With a 5-second sleep and a 300-second budget the loop body runs at most 60
times, modelled by the fuel argument.  `run k` is the result of the k-th
`is_running()` poll; the function returns how many polls the loop made. -/
def waitForDroplet (run : Nat → Bool) : Nat → Nat → Nat
  | 0, i => i
  | fuel + 1, i => if run i then i + 1 else waitForDroplet run fuel (i + 1)

/-- `MCServerManager.ensure_server_ready` (src/main.py lines 77-105): return
`true` at once when `server_ready` is already set; otherwise poll
`is_running()` in the bounded wait loop, re-check `is_running()` once (poll
index `j`), fail when the droplet is still not running, and otherwise wait
for the Minecraft application (`mc_monitor.wait_for_server_ready()`, whose
outcome is the oracle bit `waitReady`).  On success it sets `server_ready`
and `last_activity_time`.  Note: this function never calls
`start_droplet`. -/
def ensure_server_ready (run : Nat → Bool) (waitReady : Bool) (now : Nat)
    (s : ManagerState) : ManagerState × List Call × Bool :=
  if s.server_ready then (s, [], true)
  else
    let j := waitForDroplet run 60 0
    if run j then
      if waitReady then
        ({ s with server_ready := true, last_activity_time := some now },
         List.replicate (j + 1) Call.isRunning ++ [Call.waitForServerReady],
         true)
      else
        (s, List.replicate (j + 1) Call.isRunning ++ [Call.waitForServerReady],
         false)
    else
      (s, List.replicate (j + 1) Call.isRunning, false)

/-- `MCServerManager.on_connection_attempt` (src/main.py lines 60-75), the
hook `TCPProxy._listen` invokes synchronously on the accept path for every
accepted connection: it first sets `last_activity_time` to now, then calls
`do_manager.is_running()`; when the droplet is not running it clears
`server_ready` and runs `start_server` inline. -/
def on_connection_attempt (isRunning : Bool) (now : Nat) (s : ManagerState) :
    ManagerState × List Call :=
  let s1 := { s with last_activity_time := some now }
  if isRunning then (s1, [Call.isRunning])
  else
    let s2 := { s1 with server_ready := false }
    let r := start_server s2
    (r.1, Call.isRunning :: r.2)

/-- `MCServerManager.check_inactivity` (src/main.py lines 124-174),
translated branch by branch.  `timeoutMin` is `inactivity_timeout` (the
idle threshold), `now` the current instant; the second component lists the
collaborator calls made during the tick and the third classifies the branch
taken. -/
def check_inactivity (timeoutMin now : Nat) (env : CheckEnv)
    (s : ManagerState) : ManagerState × List Call × Action :=
  if ¬env.isRunning then
    ({ s with server_ready := false }, [Call.isRunning], Action.NoAction)
  else if env.activeConnections > 0 then
    ({ s with last_activity_time := some now }, [Call.isRunning],
     Action.NoAction)
  else if ¬env.serverOnline then
    (s, [Call.isRunning, Call.isServerOnline], Action.NoAction)
  else
    match env.playerCount with
    | none =>
        (s, [Call.isRunning, Call.isServerOnline, Call.getPlayerCount],
         Action.NoAction)
    | some n =>
        if n > 0 then
          ({ s with last_activity_time := some now },
           [Call.isRunning, Call.isServerOnline, Call.getPlayerCount],
           Action.NoAction)
        else
          match s.last_activity_time with
          | none =>
              ({ s with last_activity_time := some now },
               [Call.isRunning, Call.isServerOnline, Call.getPlayerCount],
               Action.StartIdleTimer)
          | some t0 =>
              if timeoutMin ≤ now - t0 then
                ({ s with last_activity_time := none, server_ready := false },
                 [Call.isRunning, Call.isServerOnline, Call.getPlayerCount,
                  Call.stopDroplet],
                 Action.TimeoutExceeded)
              else
                (s, [Call.isRunning, Call.isServerOnline, Call.getPlayerCount],
                 Action.StillIdle (timeoutMin - (now - t0)))

/-- Control points inside one `start_server` invocation (src/main.py lines
107-122): the guard check, the `start_droplet()` call inside the `try`, and
the `finally` block that clears the guard. -/
inductive StartPhase where
  | checkGuard
  | issueStart
  | finallyClear
  | done
deriving DecidableEq, Repr

/-- One intermediate configuration of a `start_server` invocation: the
current control point, the two state flags it touches, the calls issued so
far, and the recorded result of `start_droplet` once issued (`some (some b)`
models a normal return of `b`, `some none` models `start_droplet`
raising). -/
structure StartConfig where
  phase : StartPhase
  guard : Bool
  ready : Bool
  calls : List Call
  result : Option (Option Bool)
deriving DecidableEq, Repr

/-- Small-step semantics of `start_server`: from `checkGuard`, a set guard
skips straight to `done`, otherwise the guard is set and `server_ready`
cleared before control reaches the `start_droplet()` call; from
`issueStart` the call is issued (its outcome `o` is recorded but does not
affect control: returning `true`, returning `false` and raising all fall
through to the `finally`); `finallyClear` clears the guard. -/
def startStep (o : Option Bool) (c : StartConfig) : StartConfig :=
  match c.phase with
  | StartPhase.checkGuard =>
      if c.guard then { c with phase := StartPhase.done }
      else { c with phase := StartPhase.issueStart, guard := true,
                    ready := false }
  | StartPhase.issueStart =>
      { c with phase := StartPhase.finallyClear,
               calls := c.calls ++ [Call.startDroplet], result := some o }
  | StartPhase.finallyClear =>
      { c with phase := StartPhase.done, guard := false }
  | StartPhase.done => c

/-- Initial configuration of a `start_server` invocation from manager flags
`g` (`startup_in_progress`) and `r` (`server_ready`). -/
def startInit (g r : Bool) : StartConfig :=
  { phase := StartPhase.checkGuard, guard := g, ready := r, calls := [],
    result := none }

/-- Result values of the web dashboard start/stop routes
(src/web_server.py). -/
inductive ApiMsg where
  | alreadyRunning
  | alreadyStopped
  | startInitiated
  | stopInitiated
deriving DecidableEq, Repr

/-- Web route `stop_server` (src/web_server.py lines 143-172): it first
polls `do_manager.is_running()`; when the droplet is not running it answers
"Server is already stopped" and touches nothing; otherwise it calls
`stop_droplet()`, clears `server_ready` and clears `last_activity_time`. -/
def web_stop_server (isRunning : Bool) (s : ManagerState) :
    ManagerState × List Call × ApiMsg :=
  if ¬isRunning then (s, [Call.isRunning], ApiMsg.alreadyStopped)
  else
    ({ s with server_ready := false, last_activity_time := none },
     [Call.isRunning, Call.stopDroplet], ApiMsg.stopInitiated)

/-- Web route `start_server` (src/web_server.py lines 112-139): it first
polls `do_manager.is_running()`; when the droplet is running it answers
"Server is already running" and touches nothing; otherwise it runs
`manager.start_server()`. -/
def web_start_server (isRunning : Bool) (s : ManagerState) :
    ManagerState × List Call × ApiMsg :=
  if isRunning then (s, [Call.isRunning], ApiMsg.alreadyRunning)
  else
    let r := start_server s
    (r.1, Call.isRunning :: r.2, ApiMsg.startInitiated)

/-- Modelled from the spec, section 4.4: `record_activity()` sets
`last_activity_timestamp` to now. -/
def record_activity (now : Nat) : Option Nat :=
  some now

/-- Modelled from the spec, section 4.4, with the gate of step (1) amended
from "backend is not Ready" to "the instance-running probe reports not
running" (which is what the code checks): the evaluation policy in the
spec's priority order, returning the `Action` and the new
`last_activity_timestamp`.  A `none` player count is "unknown", never
treated as zero; `TimeoutExceeded` clears the timestamp. -/
def evaluate_spec (instanceRunning : Bool) (activeCount : Nat)
    (reachable : Bool) (playerCount : Option Nat) (last : Option Nat)
    (now threshold : Nat) : Action × Option Nat :=
  if ¬instanceRunning then (Action.NoAction, last)
  else if activeCount > 0 then (Action.NoAction, record_activity now)
  else if ¬reachable then (Action.NoAction, last)
  else
    match playerCount with
    | none => (Action.NoAction, last)
    | some n =>
        if n > 0 then (Action.NoAction, record_activity now)
        else
          match last with
          | none => (Action.StartIdleTimer, some now)
          | some t0 =>
              if threshold ≤ now - t0 then (Action.TimeoutExceeded, none)
              else (Action.StillIdle (threshold - (now - t0)), some t0)

/-- Observable events of one `TCPProxy._handle_connection` invocation
(src/port_listener.py lines 92-144): the locked increment and decrement of
`active_connections`, the readiness wait through
`get_server_ready_callback`, the backend connect, the relay loop, and the
closing of the two sockets. -/
inductive SessionEvent where
  | incr
  | waitReady
  | connectBackend
  | relay
  | closeClient
  | closeServer
  | decr
deriving DecidableEq, Repr

/-- The four ways a `_handle_connection` invocation can end: the readiness
callback returns false; the body raises before the backend socket is
created (for example `is_running()` raising inside the callback); the
backend connect raises; or the session reaches the relay loop and later
ends (orderly close, I/O error, or an exception caught at line 128). -/
inductive SessionOutcome where
  | readyFailed
  | raisedBeforeConnect
  | connectFailed
  | relayDone
deriving DecidableEq, Repr

/-- Event trace of `_handle_connection` for each outcome, following the
source line by line: the increment happens first under the lock (lines
96-98); a readiness failure closes the client in the body (line 106) and
the `finally` block closes it again (line 133) — the backend socket is
still `None` there; a failed connect closes the client in the body (line
118) and the `finally` closes both sockets; on the relay path the `finally`
closes both sockets; the decrement is the last action on every path (lines
142-144). -/
def sessionTrace : SessionOutcome → List SessionEvent
  | SessionOutcome.readyFailed =>
      [SessionEvent.incr, SessionEvent.waitReady, SessionEvent.closeClient,
       SessionEvent.closeClient, SessionEvent.decr]
  | SessionOutcome.raisedBeforeConnect =>
      [SessionEvent.incr, SessionEvent.waitReady, SessionEvent.closeClient,
       SessionEvent.decr]
  | SessionOutcome.connectFailed =>
      [SessionEvent.incr, SessionEvent.waitReady, SessionEvent.connectBackend,
       SessionEvent.closeClient, SessionEvent.closeClient,
       SessionEvent.closeServer, SessionEvent.decr]
  | SessionOutcome.relayDone =>
      [SessionEvent.incr, SessionEvent.waitReady, SessionEvent.connectBackend,
       SessionEvent.relay, SessionEvent.closeClient, SessionEvent.closeServer,
       SessionEvent.decr]

/-- A global trace: an interleaving of the per-session handler events, each
tagged with its session identifier.  The increments and decrements are
serialized by `connection_lock`, so a global trace is a plain sequence. -/
abbrev GTrace := List (Nat × SessionEvent)

/-- The subtrace of session `sid` inside a global trace. -/
def sub (sid : Nat) (t : GTrace) : List SessionEvent :=
  (t.filter (fun p => p.1 == sid)).map Prod.snd

/-- Boolean test that `l` is an initial segment of `m`. -/
def isPre : List SessionEvent → List SessionEvent → Bool
  | [], _ => true
  | _ :: _, [] => false
  | a :: l, b :: m => a == b && isPre l m

/-- Boolean test that an event list is an initial segment of the handler
trace of some outcome, i.e. a possible partial execution of
`_handle_connection`. -/
def anyOutcome (l : List SessionEvent) : Bool :=
  isPre l (sessionTrace SessionOutcome.readyFailed) ||
  isPre l (sessionTrace SessionOutcome.raisedBeforeConnect) ||
  isPre l (sessionTrace SessionOutcome.connectFailed) ||
  isPre l (sessionTrace SessionOutcome.relayDone)

/-- A well-formed global trace: every session appearing in it has, as its
subtrace, a partial execution of `_handle_connection`. -/
def WF (t : GTrace) : Prop :=
  ∀ sid ∈ t.map Prod.fst, anyOutcome (sub sid t) = true

instance (t : GTrace) : Decidable (WF t) := by
  unfold WF; infer_instance

/-- Contribution of one event to `active_connections`: the handler
increments once and decrements once, everything else leaves the counter
alone. -/
def delta : SessionEvent → Int
  | SessionEvent.incr => 1
  | SessionEvent.decr => -1
  | _ => 0

/-- Value of `TCPProxy.active_connections` after a global trace (the
counter starts at 0 in `__init__`). -/
def counterAfter (t : GTrace) : Int :=
  t.foldl (fun c p => c + delta p.2) 0

/-- A session is open in a trace when it has been accepted (its increment
happened) but not yet fully torn down (its decrement has not). -/
def openP (sid : Nat) (t : GTrace) : Prop :=
  SessionEvent.incr ∈ sub sid t ∧ SessionEvent.decr ∉ sub sid t

instance (sid : Nat) (t : GTrace) : Decidable (openP sid t) := by
  unfold openP; infer_instance

/-- The set of open sessions of a trace. -/
def openSessions (t : GTrace) : Finset Nat :=
  (t.map Prod.fst).toFinset.filter (fun sid => openP sid t)

lemma isPre_iff (l m : List SessionEvent) :
    isPre l m = true ↔ ∃ r, l ++ r = m := by
  induction l generalizing m with
  | nil => simp [isPre]
  | cons a l ih =>
      cases m with
      | nil =>
          simp [isPre]
      | cons b m =>
          simp only [isPre, Bool.and_eq_true, beq_iff_eq, ih, List.cons_append,
            List.cons.injEq]
          constructor
          · rintro ⟨hab, r, hr⟩; exact ⟨r, hab, hr⟩
          · rintro ⟨r, hab, hr⟩; exact ⟨hab, r, hr⟩

lemma isPre_of_concat {x : List SessionEvent} {e : SessionEvent}
    {m : List SessionEvent} (h : isPre (x ++ [e]) m = true) :
    isPre x m = true := by
  rw [isPre_iff] at h ⊢
  obtain ⟨r, hr⟩ := h
  exact ⟨[e] ++ r, by simpa [List.append_assoc] using hr⟩

lemma anyOutcome_exists {l : List SessionEvent} (h : anyOutcome l = true) :
    ∃ o : SessionOutcome, isPre l (sessionTrace o) = true := by
  simp only [anyOutcome, Bool.or_eq_true] at h
  rcases h with ((h | h) | h) | h
  · exact ⟨SessionOutcome.readyFailed, h⟩
  · exact ⟨SessionOutcome.raisedBeforeConnect, h⟩
  · exact ⟨SessionOutcome.connectFailed, h⟩
  · exact ⟨SessionOutcome.relayDone, h⟩

lemma anyOutcome_of_concat {x : List SessionEvent} {e : SessionEvent}
    (h : anyOutcome (x ++ [e]) = true) : anyOutcome x = true := by
  simp only [anyOutcome, Bool.or_eq_true] at h ⊢
  rcases h with ((h | h) | h) | h
  · exact Or.inl (Or.inl (Or.inl (isPre_of_concat h)))
  · exact Or.inl (Or.inl (Or.inr (isPre_of_concat h)))
  · exact Or.inl (Or.inr (isPre_of_concat h))
  · exact Or.inr (isPre_of_concat h)

lemma trace_count_incr (o : SessionOutcome) :
    (sessionTrace o).count SessionEvent.incr = 1 := by
  cases o <;> rfl

lemma trace_count_decr (o : SessionOutcome) :
    (sessionTrace o).count SessionEvent.decr = 1 := by
  cases o <;> rfl

lemma trace_head (o : SessionOutcome) :
    (sessionTrace o).head? = some SessionEvent.incr := by
  cases o <;> rfl

/-- A partial handler execution ending in the increment had performed
nothing before it: the increment is the very first action of
`_handle_connection`. -/
lemma pre_concat_incr {x : List SessionEvent} {o : SessionOutcome}
    (h : isPre (x ++ [SessionEvent.incr]) (sessionTrace o) = true) :
    x = [] := by
  rw [isPre_iff] at h
  obtain ⟨r, hr⟩ := h
  have hcount := congrArg (List.count SessionEvent.incr) hr
  rw [trace_count_incr] at hcount
  simp [List.count_append] at hcount
  cases x with
  | nil => rfl
  | cons a x =>
      exfalso
      have hhead := congrArg List.head? hr
      rw [trace_head] at hhead
      simp only [List.cons_append, List.head?_cons, Option.some.injEq] at hhead
      subst hhead
      simp [List.count_cons_self] at hcount
      omega

/-- A partial handler execution ending in the decrement has already done
the increment and had not yet decremented: the decrement is unique and
comes last. -/
lemma pre_concat_decr {x : List SessionEvent} {o : SessionOutcome}
    (h : isPre (x ++ [SessionEvent.decr]) (sessionTrace o) = true) :
    SessionEvent.incr ∈ x ∧ SessionEvent.decr ∉ x := by
  rw [isPre_iff] at h
  obtain ⟨r, hr⟩ := h
  have hcount := congrArg (List.count SessionEvent.decr) hr
  rw [trace_count_decr] at hcount
  simp [List.count_append] at hcount
  have hnotdecr : SessionEvent.decr ∉ x := by
    intro hmem
    have := List.count_pos_iff.mpr hmem
    omega
  refine ⟨?_, hnotdecr⟩
  cases x with
  | nil =>
      exfalso
      have hhead := congrArg List.head? hr
      rw [trace_head] at hhead
      simp at hhead
  | cons a x =>
      have hhead := congrArg List.head? hr
      rw [trace_head] at hhead
      simp only [List.cons_append, List.head?_cons, Option.some.injEq] at hhead
      subst hhead
      exact List.mem_cons_self _ _

/-- A partial handler execution ending in any event other than the
increment is nonempty before that event (the increment came first). -/
lemma pre_concat_other {x : List SessionEvent} {e : SessionEvent}
    {o : SessionOutcome} (he : e ≠ SessionEvent.incr)
    (h : isPre (x ++ [e]) (sessionTrace o) = true) : x ≠ [] := by
  intro hx
  subst hx
  rw [isPre_iff] at h
  obtain ⟨r, hr⟩ := h
  have hhead := congrArg List.head? hr
  rw [trace_head] at hhead
  simp only [List.nil_append, List.singleton_append, List.head?_cons,
    Option.some.injEq] at hhead
  exact he hhead

lemma sub_append_one (sid : Nat) (t : GTrace) (p : Nat × SessionEvent) :
    sub sid (t ++ [p]) =
      sub sid t ++ (if p.1 = sid then [p.2] else []) := by
  by_cases h : p.1 = sid <;>
    simp [sub, List.filter_append, h]

lemma sub_eq_nil_iff (sid : Nat) (t : GTrace) :
    sub sid t = [] ↔ sid ∉ t.map Prod.fst := by
  simp only [sub, List.map_eq_nil_iff, List.filter_eq_nil_iff, beq_iff_eq,
    List.mem_map]
  constructor
  · rintro h ⟨p, hp, hfst⟩
    exact h p hp hfst
  · rintro h p hp hfst
    exact h ⟨p, hp, hfst⟩

lemma counterAfter_append_one (t : GTrace) (p : Nat × SessionEvent) :
    counterAfter (t ++ [p]) = counterAfter t + delta p.2 := by
  simp [counterAfter, List.foldl_append]

lemma fst_toFinset_append (t : GTrace) (p : Nat × SessionEvent) :
    ((t ++ [p]).map Prod.fst).toFinset =
      insert p.1 (t.map Prod.fst).toFinset := by
  ext x
  simp [List.mem_map, or_comm]

lemma WF_of_append {t : GTrace} {p : Nat × SessionEvent}
    (h : WF (t ++ [p])) : WF t := by
  intro sid hsid
  have hsid2 : sid ∈ (t ++ [p]).map Prod.fst := by
    simp only [List.map_append, List.mem_append]
    exact Or.inl hsid
  have h2 := h sid hsid2
  rw [sub_append_one] at h2
  by_cases hp : p.1 = sid
  · rw [if_pos hp] at h2
    exact anyOutcome_of_concat h2
  · rwa [if_neg hp, List.append_nil] at h2

lemma openP_unchanged {sid : Nat} {t : GTrace} {p : Nat × SessionEvent}
    (h : p.1 ≠ sid) : openP sid (t ++ [p]) ↔ openP sid t := by
  rw [openP, openP, sub_append_one, if_neg h, List.append_nil]

/-- Appending an increment for session `sid`: the session was absent from
the trace before, and the open-session set gains `sid`. -/
lemma step_incr {t : GTrace} {sid : Nat}
    (h : WF (t ++ [(sid, SessionEvent.incr)])) :
    sid ∉ (t.map Prod.fst).toFinset ∧
      openSessions (t ++ [(sid, SessionEvent.incr)]) =
        insert sid (openSessions t) := by
  have hsid : sid ∈ (t ++ [(sid, SessionEvent.incr)]).map Prod.fst := by
    simp
  obtain ⟨o, ho⟩ := anyOutcome_exists (h sid hsid)
  rw [sub_append_one, if_pos rfl] at ho
  have hnil : sub sid t = [] := pre_concat_incr ho
  have hout : sid ∉ t.map Prod.fst := (sub_eq_nil_iff sid t).mp hnil
  have hnotmem : sid ∉ (t.map Prod.fst).toFinset := by
    simpa [List.mem_toFinset] using hout
  refine ⟨hnotmem, ?_⟩
  have hopen : openP sid (t ++ [(sid, SessionEvent.incr)]) := by
    rw [openP, sub_append_one, if_pos rfl, hnil]
    simp
  rw [openSessions, openSessions, fst_toFinset_append,
    Finset.filter_insert, if_pos hopen]
  congr 1
  apply Finset.filter_congr
  intro x hx
  have hne : (sid : Nat) ≠ x := by
    intro hEq
    exact hnotmem (hEq ▸ hx)
  exact openP_unchanged hne

/-- Appending a decrement for session `sid`: the session was open before,
and the open-session set loses `sid`. -/
lemma step_decr {t : GTrace} {sid : Nat}
    (h : WF (t ++ [(sid, SessionEvent.decr)])) :
    sid ∈ openSessions t ∧
      openSessions (t ++ [(sid, SessionEvent.decr)]) =
        (openSessions t).erase sid := by
  have hsid : sid ∈ (t ++ [(sid, SessionEvent.decr)]).map Prod.fst := by
    simp
  obtain ⟨o, ho⟩ := anyOutcome_exists (h sid hsid)
  rw [sub_append_one, if_pos rfl] at ho
  obtain ⟨hincr, hdecr⟩ := pre_concat_decr ho
  have hopen : openP sid t := ⟨hincr, hdecr⟩
  have hne : sub sid t ≠ [] := by
    intro hnil
    rw [hnil] at hincr
    exact List.not_mem_nil _ hincr
  have hmemfst : sid ∈ t.map Prod.fst := by
    by_contra hc
    exact hne ((sub_eq_nil_iff sid t).mpr hc)
  have hmemS : sid ∈ (t.map Prod.fst).toFinset := by
    simpa [List.mem_toFinset] using hmemfst
  have hmemOpen : sid ∈ openSessions t :=
    Finset.mem_filter.mpr ⟨hmemS, hopen⟩
  refine ⟨hmemOpen, ?_⟩
  have hclosed : ¬openP sid (t ++ [(sid, SessionEvent.decr)]) := by
    rw [openP, sub_append_one, if_pos rfl]
    intro hcon
    exact hcon.2 (by simp)
  rw [openSessions, openSessions, fst_toFinset_append,
    Finset.filter_insert, if_neg hclosed]
  ext x
  by_cases hx : x = sid
  · subst hx
    simp only [Finset.mem_filter, Finset.mem_erase]
    constructor
    · rintro ⟨hxS, hxP⟩
      exact absurd hxP hclosed
    · rintro ⟨hxx, hmem⟩
      exact absurd rfl hxx
  · have hne2 : (sid : Nat) ≠ x := fun hEq => hx hEq.symm
    simp only [Finset.mem_filter, Finset.mem_erase]
    rw [openP_unchanged hne2]
    tauto

/-- Appending any event other than the increment and the decrement: the
session was already present and the open-session set is unchanged. -/
lemma step_other {t : GTrace} {sid : Nat} {e : SessionEvent}
    (he1 : e ≠ SessionEvent.incr) (he2 : e ≠ SessionEvent.decr)
    (h : WF (t ++ [(sid, e)])) :
    openSessions (t ++ [(sid, e)]) = openSessions t := by
  have hsid : sid ∈ (t ++ [(sid, e)]).map Prod.fst := by
    simp
  obtain ⟨o, ho⟩ := anyOutcome_exists (h sid hsid)
  rw [sub_append_one, if_pos rfl] at ho
  have hne : sub sid t ≠ [] := pre_concat_other he1 ho
  have hmemfst : sid ∈ t.map Prod.fst := by
    by_contra hc
    exact hne ((sub_eq_nil_iff sid t).mpr hc)
  have hmemS : sid ∈ (t.map Prod.fst).toFinset := by
    simpa [List.mem_toFinset] using hmemfst
  have hsame : openP sid (t ++ [(sid, e)]) ↔ openP sid t := by
    rw [openP, openP, sub_append_one, if_pos rfl]
    simp only [List.mem_append, List.mem_singleton]
    constructor
    · rintro ⟨hi, hd⟩
      refine ⟨?_, fun hc => hd (Or.inl hc)⟩
      rcases hi with hi | hi
      · exact hi
      · exact absurd hi.symm he1
    · rintro ⟨hi, hd⟩
      refine ⟨Or.inl hi, ?_⟩
      rintro (hc | hc)
      · exact hd hc
      · exact he2 hc.symm
  rw [openSessions, openSessions, fst_toFinset_append,
    Finset.insert_eq_self.mpr hmemS]
  apply Finset.filter_congr
  intro x hx
  by_cases hxs : x = sid
  · subst hxs
    exact hsame
  · exact openP_unchanged (fun hEq => hxs hEq.symm)

lemma delta_other {e : SessionEvent} (he1 : e ≠ SessionEvent.incr)
    (he2 : e ≠ SessionEvent.decr) : delta e = 0 := by
  cases e <;> first | rfl | exact absurd rfl he1 | exact absurd rfl he2

/-- The active-connection counter after any well-formed interleaving of
handler executions equals the number of open sessions. -/
lemma counterAfter_eq_card (t : GTrace) (h : WF t) :
    counterAfter t = ((openSessions t).card : Int) := by
  induction t using List.reverseRecOn with
  | nil => simp [counterAfter, openSessions]
  | append_singleton t p ih =>
      obtain ⟨sid, e⟩ := p
      have ht := WF_of_append h
      have ihv := ih ht
      rw [counterAfter_append_one, ihv]
      by_cases hi : e = SessionEvent.incr
      · subst hi
        obtain ⟨hnot, hins⟩ := step_incr h
        have hnotOpen : sid ∉ openSessions t := by
          intro hc
          exact hnot (Finset.mem_of_mem_filter sid hc)
        rw [hins, Finset.card_insert_of_not_mem hnotOpen]
        simp [delta]
      · by_cases hd : e = SessionEvent.decr
        · subst hd
          obtain ⟨hmem, hers⟩ := step_decr h
          rw [hers, Finset.card_erase_of_mem hmem]
          have hpos : 1 ≤ (openSessions t).card :=
            Finset.card_pos.mpr ⟨sid, hmem⟩
          simp only [delta]
          push_cast [Nat.cast_sub hpos]
          ring
        · rw [step_other hi hd h, delta_other hi hd]
          ring

/-- Per-exit-path discipline of `_handle_connection`: each handler trace
has exactly one increment and one decrement; the increment is the very
first event (before the readiness wait and the relay); the decrement is the
very last; the client socket is closed before the decrement on every path,
and the backend socket is closed before the decrement on every path that
created it (connect failure and relay). -/
def sessionDiscipline : Prop :=
  ∀ o : SessionOutcome,
    (sessionTrace o).count SessionEvent.incr = 1 ∧
    (sessionTrace o).count SessionEvent.decr = 1 ∧
    (sessionTrace o).head? = some SessionEvent.incr ∧
    (sessionTrace o).getLast? = some SessionEvent.decr ∧
    SessionEvent.closeClient ∈ (sessionTrace o).dropLast ∧
    ((o = SessionOutcome.connectFailed ∨ o = SessionOutcome.relayDone) →
      SessionEvent.closeServer ∈ (sessionTrace o).dropLast)

/-- Concrete interleaved trace used to witness the counter theorem: session
0 runs a readiness-failure execution to completion while session 1 has been
accepted and is still in flight. -/
def tC2 : GTrace :=
  [(0, SessionEvent.incr), (0, SessionEvent.waitReady),
   (1, SessionEvent.incr), (0, SessionEvent.closeClient),
   (0, SessionEvent.closeClient), (0, SessionEvent.decr)]

/-- Claim C2: the active-connection counter is never negative and, at every
point of every well-formed interleaving of handler executions, equals the
number of sessions that have been accepted but not yet fully torn down;
moreover every handler execution increments the counter exactly once, as
its first action, decrements exactly once, as its last action, and closes
its sockets before the decrement, on every exit path (readiness failure,
backend-connect failure, I/O error, orderly close). -/
theorem active_counter_matches_open_sessions (t : GTrace) (h : WF t) :
    counterAfter t = ((openSessions t).card : Int) ∧
    0 ≤ counterAfter t ∧ sessionDiscipline := by
  refine ⟨counterAfter_eq_card t h, ?_, ?_⟩
  · rw [counterAfter_eq_card t h]
    exact Int.natCast_nonneg _
  · intro o
    cases o <;> exact ⟨rfl, rfl, rfl, rfl, by decide, by decide⟩

/-- Witness for C2 at the trace `tC2`: the counter reads 1 and exactly
session 1 is open. -/
theorem active_counter_matches_open_sessions_witness :
    WF tC2 ∧
      (counterAfter tC2 = ((openSessions tC2).card : Int) ∧
       0 ≤ counterAfter tC2 ∧ sessionDiscipline) :=
  ⟨by decide, active_counter_matches_open_sessions tC2 (by decide)⟩

/-- Claim C1, counterexample: a single `ensure_server_ready` call made
while the backend is Offline (flag clear, droplet never reported running)
issues zero start sequences to the instance controller, not exactly one —
the start is not issued by `ensure_server_ready` at all. -/
theorem ensure_ready_offline_issues_no_start_counterexample :
    (ensure_server_ready (fun _ => false) false 0
        ⟨none, false, false⟩).2.1.count Call.startDroplet = 0 ∧
    (ensure_server_ready (fun _ => false) false 0
        ⟨none, false, false⟩).2.2 = false := by
  constructor <;> rfl

/-- Claim C1, amended: `ensure_server_ready` never issues a start sequence
to the instance controller (it only polls `is_running` and waits for the
application); the start sequence is issued by `start_server` — invoked from
the on-connect hook — which issues exactly one start when the guard is
clear and none when a start is already in progress. -/
theorem ensure_ready_never_starts_and_guarded_start :
    (∀ (run : Nat → Bool) (waitReady : Bool) (now : Nat) (s : ManagerState),
       Call.startDroplet ∉ (ensure_server_ready run waitReady now s).2.1) ∧
    (∀ s : ManagerState,
       (start_server s).2.count Call.startDroplet =
         if s.startup_in_progress then 0 else 1) := by
  constructor
  · intro run waitReady now s
    unfold ensure_server_ready
    by_cases h1 : s.server_ready
    · simp [h1]
    · by_cases h2 : run (waitForDroplet run 60 0) <;>
        by_cases h3 : waitReady <;>
        simp [h1, h2, h3, List.mem_append, List.mem_replicate]
  · intro s
    unfold start_server
    split_ifs <;> rfl

/-- Claim C3, counterexample: a tick taken while the backend is not Ready
(`server_ready = false`) but the droplet is reported running does not
return `NoAction` — with no connections, a responding server, zero players
and an expired idle timer it returns `TimeoutExceeded` and issues the stop
sequence.  The code gates the evaluation on the instance-running probe,
not on readiness. -/
theorem not_ready_tick_can_stop_counterexample :
    (⟨some 0, false, false⟩ : ManagerState).server_ready = false ∧
    (check_inactivity 15 100 ⟨true, 0, true, some 0⟩
        ⟨some 0, false, false⟩).2.2 = Action.TimeoutExceeded ∧
    Call.stopDroplet ∈
      (check_inactivity 15 100 ⟨true, 0, true, some 0⟩
          ⟨some 0, false, false⟩).2.1 := by
  refine ⟨rfl, rfl, ?_⟩
  decide

/-- Claim C3, amended: with step (1) gated on the instance-running probe
(rather than on Ready), every tick follows the spec's priority order:
`check_inactivity` computes exactly the action and the new
`last_activity_timestamp` of the spec policy `evaluate_spec`, and it issues
the stop sequence exactly on `TimeoutExceeded`. -/
theorem check_inactivity_matches_spec_policy :
    ∀ (timeoutMin now : Nat) (env : CheckEnv) (s : ManagerState),
      ((check_inactivity timeoutMin now env s).2.2,
        (check_inactivity timeoutMin now env s).1.last_activity_time) =
        evaluate_spec env.isRunning env.activeConnections env.serverOnline
          env.playerCount s.last_activity_time now timeoutMin ∧
      (Call.stopDroplet ∈ (check_inactivity timeoutMin now env s).2.1 ↔
        (check_inactivity timeoutMin now env s).2.2 =
          Action.TimeoutExceeded) := by
  intro tm now env s
  obtain ⟨ir, ac, so, pc⟩ := env
  obtain ⟨la, g, r⟩ := s
  cases ir <;> cases so <;> cases pc <;> cases la <;>
    simp [check_inactivity, evaluate_spec, record_activity] <;>
    split_ifs <;> simp_all

/-- Claim C4, counterexample: at a tick with one active connection but the
droplet reported not running, the code returns early and does not record
activity — `last_activity_time` stays `some 5` instead of being set to the
current instant 100. -/
theorem active_conns_no_record_when_offline_counterexample :
    0 < (⟨false, 1, true, some 0⟩ : CheckEnv).activeConnections ∧
    (check_inactivity 15 100 ⟨false, 1, true, some 0⟩
        ⟨some 5, false, true⟩).1.last_activity_time = some 5 ∧
    some 5 ≠ some (100 : Nat) := by
  decide

/-- Claim C4, amended: at every tick with a positive active-connection
count, `check_inactivity` never returns `TimeoutExceeded` and never issues
the stop sequence; it records activity (sets `last_activity_time` to now)
when the instance-running probe reports running, and leaves
`last_activity_time` untouched when the probe reports not running (the tick
returns early). -/
theorem active_conns_never_timeout :
    ∀ (timeoutMin now a : Nat) (so : Bool) (pc : Option Nat)
      (s : ManagerState),
      ((check_inactivity timeoutMin now ⟨true, a + 1, so, pc⟩ s).2.2 ≠
          Action.TimeoutExceeded ∧
        Call.stopDroplet ∉
          (check_inactivity timeoutMin now ⟨true, a + 1, so, pc⟩ s).2.1 ∧
        (check_inactivity timeoutMin now
            ⟨true, a + 1, so, pc⟩ s).1.last_activity_time = some now) ∧
      ((check_inactivity timeoutMin now ⟨false, a + 1, so, pc⟩ s).2.2 ≠
          Action.TimeoutExceeded ∧
        Call.stopDroplet ∉
          (check_inactivity timeoutMin now ⟨false, a + 1, so, pc⟩ s).2.1 ∧
        (check_inactivity timeoutMin now
            ⟨false, a + 1, so, pc⟩ s).1.last_activity_time =
          s.last_activity_time) := by
  intro tm now a so pc s
  constructor <;> simp [check_inactivity]

/-- Claim C5, counterexample: the on-connect hook invoked synchronously on
the accept path does perform instance-controller operations — with the
droplet offline and no start in progress it calls `is_running` and then the
full start sequence (`start_droplet`) inline. -/
theorem connect_hook_calls_controller_counterexample :
    Call.isRunning ∈ (on_connection_attempt false 0 ⟨none, false, false⟩).2 ∧
    Call.startDroplet ∈
      (on_connection_attempt false 0 ⟨none, false, false⟩).2 := by
  decide

/-- Claim C5, amended: the on-connect hook always polls `is_running` on the
accept path and, when the droplet is not running and no start is in
progress, issues the start sequence there as well; it performs no readiness
wait and no liveness probe (`wait_for_server_ready`, `is_server_online`,
`get_player_count` are never called from the hook — the readiness wait runs
in the per-session handler). -/
theorem connect_hook_call_profile :
    ∀ (isRunning : Bool) (now : Nat) (s : ManagerState),
      (on_connection_attempt isRunning now s).2.count
          Call.waitForServerReady = 0 ∧
      (on_connection_attempt isRunning now s).2.count Call.isServerOnline = 0 ∧
      (on_connection_attempt isRunning now s).2.count Call.getPlayerCount = 0 ∧
      (on_connection_attempt isRunning now s).2.count Call.isRunning = 1 ∧
      (on_connection_attempt isRunning now s).2.count Call.startDroplet =
        (if isRunning ∨ s.startup_in_progress then 0 else 1) := by
  intro ir now s
  cases ir <;> by_cases hg : s.startup_in_progress <;>
    simp [on_connection_attempt, start_server, hg]

/-- Claim C6: in every `start_server` invocation that proceeds (guard
initially clear), the guard is set before the `start_droplet` request is
issued, the invocation ends with the guard cleared whatever the outcome of
`start_droplet` (returning true, returning false, or raising — the clear
sits in a `finally`), and a subsequent invocation from the resulting flags
proceeds to issue a new start. -/
theorem startup_guard_set_before_start_and_cleared :
    ∀ (o : Option Bool) (r : Bool),
      ((startStep o (startInit false r)).phase = StartPhase.issueStart ∧
       (startStep o (startInit false r)).guard = true) ∧
      (startStep o (startStep o (startInit false r))).calls =
        [Call.startDroplet] ∧
      (startStep o (startStep o (startStep o (startInit false r)))).phase =
        StartPhase.done ∧
      (startStep o (startStep o (startStep o (startInit false r)))).guard =
        false ∧
      (startStep o
          (startInit
            (startStep o (startStep o (startStep o (startInit false r)))).guard
            (startStep o (startStep o (startStep o
              (startInit false r)))).ready)).phase =
        StartPhase.issueStart := by
  intro o r
  simp [startStep, startInit]

/-- Claim C7: `ensure_server_ready` called while the backend is already
Ready (`server_ready = true`) returns true immediately with no collaborator
call and no state change — `last_activity_time`, the startup guard and the
ready flag are all left exactly as they were. -/
theorem ensure_ready_when_ready_no_side_effects :
    ∀ (run : Nat → Bool) (waitReady : Bool) (now : Nat) (la : Option Nat)
      (g : Bool),
      ensure_server_ready run waitReady now ⟨la, g, true⟩ =
        (⟨la, g, true⟩, [], true) := by
  intro run waitReady now la g
  simp [ensure_server_ready]

/-- Claim C8, counterexample: the web stop route invoked while the droplet
is not running answers "already stopped" but does cause an
instance-controller call — it polls `is_running` to make that decision, so
its call list is `[is_running]`, not empty. -/
theorem manual_stop_polls_controller_counterexample :
    (web_stop_server false ⟨some 3, false, true⟩).2.2 =
      ApiMsg.alreadyStopped ∧
    (web_stop_server false ⟨some 3, false, true⟩).2.1 = [Call.isRunning] ∧
    [Call.isRunning] ≠ ([] : List Call) := by
  decide

/-- Claim C8, amended: `manual_stop` invoked while the droplet is not
running returns "already stopped", and `manual_start` invoked while it is
running (in particular while Ready) returns "already running"; in both
cases the state is left unchanged and no power-on or shutdown request is
issued — each route performs exactly one `is_running` status poll to make
the decision. -/
theorem manual_noop_no_mutating_calls :
    ∀ s : ManagerState,
      (web_stop_server false s = (s, [Call.isRunning], ApiMsg.alreadyStopped) ∧
        Call.stopDroplet ∉ (web_stop_server false s).2.1 ∧
        Call.startDroplet ∉ (web_stop_server false s).2.1) ∧
      (web_start_server true s = (s, [Call.isRunning], ApiMsg.alreadyRunning) ∧
        Call.stopDroplet ∉ (web_start_server true s).2.1 ∧
        Call.startDroplet ∉ (web_start_server true s).2.1) := by
  intro s
  refine ⟨⟨rfl, ?_, ?_⟩, ⟨rfl, ?_, ?_⟩⟩ <;>
    simp [web_stop_server, web_start_server]

/-- Claim C9: after every `check_inactivity` tick at which the instance
probe reports the droplet not running, `server_ready` is false; hence a
later `ensure_server_ready` call cannot short-circuit to true — with the
droplet still reported off it polls and returns false. -/
theorem not_running_tick_clears_ready :
    ∀ (timeoutMin now ac : Nat) (so : Bool) (pc : Option Nat)
      (s : ManagerState) (waitReady : Bool) (now2 : Nat),
      (check_inactivity timeoutMin now ⟨false, ac, so, pc⟩ s).1.server_ready =
        false ∧
      (ensure_server_ready (fun _ => false) waitReady now2
          (check_inactivity timeoutMin now ⟨false, ac, so, pc⟩ s).1).2.2 =
        false := by
  intro tm now ac so pc s waitReady now2
  have h : (check_inactivity tm now ⟨false, ac, so, pc⟩ s).1.server_ready =
      false := by
    simp [check_inactivity]
  refine ⟨h, ?_⟩
  simp [ensure_server_ready, h]

/-- Claim C10: every accepted connection runs the on-connect hook, which
sets `last_activity_time` to the current instant unconditionally — before
the droplet probe, regardless of whether a wake is then attempted or of its
outcome — so even a connection whose session never relays a byte resets the
idle countdown. -/
theorem connection_attempt_records_activity :
    ∀ (isRunning : Bool) (now : Nat) (s : ManagerState),
      (on_connection_attempt isRunning now s).1.last_activity_time =
        some now := by
  intro ir now s
  cases ir <;> by_cases hg : s.startup_in_progress <;>
    simp [on_connection_attempt, start_server, hg]

end MCSM
